import Mathlib

/-!
Verification of the CultureCoded SDK JavaScript client
(`src/javascript/src/types.ts`, class `CultureCoded`) against its design
specification.  The client is a thin HTTP wrapper, embedded shallowly:

* request construction (`CultureCoded.request`, lines 165-187 of the
  source) is the pure function `CultureCoded.buildRequest` producing an
  `HttpRequest`;
* response handling (lines 189-202) is the pure function
  `handleResponse` on an already-received `HttpResponse`; the body of a
  response is modelled as the outcome of `response.json()`: `some j` for
  a body that parses to the JSON value `j`, `none` for a body that is
  not valid JSON;
* each public operation of the class is a function returning
  `Except SdkError HttpRequest`: `.error` means the operation threw
  before any network activity, `.ok r` means it issues exactly the
  request `r`;
* `performT` composes an operation with a transport function and
  returns the list of requests actually issued together with the final
  outcome, so "no network activity" is the issued list being empty.

JavaScript value semantics that the source relies on are modelled
explicitly: string truthiness (`jsFalsyStr`, `jsOrElse` for `||`),
property access on a parsed JSON value (`Json.getField`, which is
`undefined`/`none` on non-objects, while access on `null` throws a
`TypeError`), and the string coercion `String(v)` performed by
`new Error(v)` (`Json.jsToString`).
-/

/-- JSON values, as produced by JavaScript `JSON.parse` and consumed by
`JSON.stringify`.  Numbers are restricted to integers; no claim touches
a fractional numeric payload. -/
inductive Json where
  | null
  | bool (b : Bool)
  | num (n : Int)
  | str (s : String)
  | arr (elems : List Json)
  | obj (fields : List (String × Json))
deriving Repr

/-- JavaScript property access `v[key]` on a parsed JSON value (for a
non-`null` value; access on `null` throws and is handled separately at
the use site).  Absent keys and non-objects give `undefined`, i.e.
`none`.  A parsed JSON object has unique keys, so first-match lookup is
exact. -/
def Json.getField : Json → String → Option Json
  | .obj fields, key => fields.lookup key
  | _, _ => none

/-- JavaScript truthiness of a parsed JSON value. -/
def Json.jsTruthy : Json → Bool
  | .null => false
  | .bool b => b
  | .num n => n != 0
  | .str s => s != ""
  | .arr _ => true
  | .obj _ => true

mutual

/-- The string coercion `String(v)` applied by `new Error(v)` when `v`
is not already a string. -/
def Json.jsToString : Json → String
  | .null => "null"
  | .bool true => "true"
  | .bool false => "false"
  | .num n => toString n
  | .str s => s
  | .arr elems => Json.jsToStringElems elems
  | .obj _ => "[object Object]"

/-- `Array.prototype.toString`: elements coerced and comma-joined. -/
def Json.jsToStringElems : List Json → String
  | [] => ""
  | [j] => Json.jsToString j
  | j :: rest => Json.jsToString j ++ "," ++ Json.jsToStringElems rest

end

/-- JavaScript falsiness of an optional string field: `undefined` and
the empty string are falsy (`!x` is `true`). -/
def jsFalsyStr : Option String → Bool
  | none => true
  | some s => s == ""

/-- JavaScript `x || dflt` on an optional string. -/
def jsOrElse (x : Option String) (dflt : String) : String :=
  match x with
  | some s => if s == "" then dflt else s
  | none => dflt

/-- HTTP methods used by the client. -/
inductive HttpMethod where
  | GET
  | POST
  | DELETE
  | PATCH
deriving Repr, DecidableEq

/-- The request handed to `fetch`: URL, header list (in insertion
order), and the JSON body attached via `JSON.stringify` when present. -/
structure HttpRequest where
  method : HttpMethod
  url : String
  headers : List (String × String)
  body : Option Json
deriving Repr

/-- A received HTTP response: its status code, and the outcome of
`response.json()` on its body (`none` = the body is not valid JSON). -/
structure HttpResponse where
  status : Nat
  body : Option Json
deriving Repr

/-- Everything the client can throw.
`plain` is a bare `new Error(message)` from pre-flight validation;
`remote` is the `Error & ApiError` built for a non-2xx response
(lines 191-193 of the source), carrying `status`, the raw `code`
property of the parsed error body, and the message;
`typeError` is the JavaScript `TypeError` raised by reading
`.message` of a parsed error body equal to JSON `null`;
`jsonParse` is the raw rejection of `response.json()` on the success
path (line 202), which has no `.catch` there. -/
inductive SdkError where
  | plain (message : String)
  | remote (status : Nat) (code : Option Json) (message : String)
  | typeError
  | jsonParse
deriving Repr

/-- `response.ok` of the Fetch API: status in 200..299 inclusive. -/
def responseOk (status : Nat) : Bool :=
  decide (200 ≤ status) && decide (status ≤ 299)

/-- `errorData.message || fallback` followed by the `new Error(...)`
string coercion, where `fallback` is the template literal
`Request failed with status N` (line 191 of the source). -/
def remoteErrorMessage (errorData : Json) (status : Nat) : String :=
  match errorData.getField "message" with
  | some v =>
      if v.jsTruthy then v.jsToString
      else "Request failed with status " ++ toString status
  | none => "Request failed with status " ++ toString status

/-- Lines 189-202 of the source: the response-handling tail of
`CultureCoded.request`.
On `!response.ok`, the body is parsed with a `.catch` giving the empty
object, and an error carrying status/code/message is thrown — unless
the body parsed to JSON `null`, in which case reading `.message` of
`null` throws a `TypeError` first.  A 204 resolves with no value; any
other 2xx resolves with the parsed body, the parse rejection being
propagated as-is. -/
def handleResponse (r : HttpResponse) : Except SdkError (Option Json) :=
  if !(responseOk r.status) then
    match r.body.getD (Json.obj []) with
    | .null => .error .typeError
    | errorData =>
        .error (.remote r.status (errorData.getField "code")
          (remoteErrorMessage errorData r.status))
  else if r.status == 204 then
    .ok none
  else
    match r.body with
    | some payload => .ok (some payload)
    | none => .error .jsonParse

/-- Run an already-validated operation against a transport.  Returns
the requests actually issued and the final outcome; a pre-flight
validation error issues no request at all. -/
def performT (transport : HttpRequest → HttpResponse) :
    Except SdkError HttpRequest → List HttpRequest × Except SdkError (Option Json)
  | .error e => ([], .error e)
  | .ok r => ([r], handleResponse (transport r))

/-!
`encodeURIComponent`, used by `getEthnicGroups` (line 280 of the
source).  ECMAScript leaves the unreserved characters
`A-Z a-z 0-9 - _ . ! ~ * ' ( )` as-is and percent-escapes every UTF-8
byte of every other character with uppercase hex digits.  A decoder is
defined alongside so that the round-trip property can be stated.
-/

/-- The unreserved set of `encodeURIComponent`, by code point:
letters, digits, and `- _ . ! ~ * ' ( )`
(45 95 46 33 126 42 39 40 41). -/
def uriUnreserved (c : Char) : Bool :=
  let n := c.toNat
  (decide (65 ≤ n) && decide (n ≤ 90)) ||
  (decide (97 ≤ n) && decide (n ≤ 122)) ||
  (decide (48 ≤ n) && decide (n ≤ 57)) ||
  n == 45 || n == 95 || n == 46 || n == 33 ||
  n == 126 || n == 42 || n == 39 || n == 40 || n == 41

/-- Uppercase hexadecimal digit for a value below 16. -/
def hexDigit (m : Nat) : Char :=
  if m < 10 then Char.ofNat (48 + m) else Char.ofNat (55 + m)

/-- The UTF-8 bytes of a character. -/
def utf8Bytes (c : Char) : List Nat :=
  if c.toNat < 128 then [c.toNat]
  else if c.toNat < 2048 then
    [192 + c.toNat / 64, 128 + c.toNat % 64]
  else if c.toNat < 65536 then
    [224 + c.toNat / 4096, 128 + c.toNat / 64 % 64, 128 + c.toNat % 64]
  else
    [240 + c.toNat / 262144, 128 + c.toNat / 4096 % 64, 128 + c.toNat / 64 % 64,
     128 + c.toNat % 64]

/-- Percent-escape of one byte: `%` followed by two uppercase hex
digits. -/
def percentByte (b : Nat) : List Char :=
  ['%', hexDigit (b / 16), hexDigit (b % 16)]

/-- Encoding of one character: itself when unreserved, otherwise the
percent-escapes of its UTF-8 bytes. -/
def encChar (c : Char) : List Char :=
  if uriUnreserved c then [c] else ((utf8Bytes c).map percentByte).flatten

/-- ECMAScript `encodeURIComponent`. -/
def encodeURIComponent (s : String) : String :=
  String.mk ((s.data.map encChar).flatten)

/-- Value of a hexadecimal digit character. -/
def hexVal (c : Char) : Option Nat :=
  if 48 ≤ c.toNat ∧ c.toNat ≤ 57 then some (c.toNat - 48)
  else if 65 ≤ c.toNat ∧ c.toNat ≤ 70 then some (c.toNat - 55)
  else if 97 ≤ c.toNat ∧ c.toNat ≤ 102 then some (c.toNat - 87)
  else none

/-- Percent-decoding of a character list to a byte list: every
`%XX` yields the byte `XX`, any other character contributes its own
code point. -/
def percentDecode : List Char → Option (List Nat)
  | [] => some []
  | c :: rest =>
    if c = '%' then
      match rest with
      | h :: l :: rest2 =>
        match hexVal h, hexVal l with
        | some a, some b => (percentDecode rest2).map (fun t => (16 * a + b) :: t)
        | _, _ => none
      | _ => none
    else
      (percentDecode rest).map (fun t => c.toNat :: t)

/-- One step of UTF-8 decoding: reads the scalar value encoded at the
head of the byte stream and returns it with the remaining bytes. -/
def utf8DecodeStep (b : Nat) (rest : List Nat) : Option (Nat × List Nat) :=
  if b < 128 then some (b, rest)
  else if b < 192 then none
  else if b < 224 then
    match rest with
    | b2 :: rest2 =>
      if 128 ≤ b2 ∧ b2 < 192 then some ((b - 192) * 64 + (b2 - 128), rest2) else none
    | _ => none
  else if b < 240 then
    match rest with
    | b2 :: b3 :: rest3 =>
      if (128 ≤ b2 ∧ b2 < 192) ∧ (128 ≤ b3 ∧ b3 < 192) then
        some ((b - 224) * 4096 + (b2 - 128) * 64 + (b3 - 128), rest3)
      else none
    | _ => none
  else if b < 248 then
    match rest with
    | b2 :: b3 :: b4 :: rest4 =>
      if (128 ≤ b2 ∧ b2 < 192) ∧ (128 ≤ b3 ∧ b3 < 192) ∧ (128 ≤ b4 ∧ b4 < 192) then
        some ((b - 240) * 262144 + (b2 - 128) * 4096 + (b3 - 128) * 64 + (b4 - 128), rest4)
      else none
    | _ => none
  else none

/-- UTF-8 decoding of a byte list, with fuel for termination; one unit
of fuel per decoded character suffices since every character consumes
at least one byte. -/
def utf8DecodeAux : Nat → List Nat → Option (List Char)
  | _, [] => some []
  | 0, _ :: _ => none
  | fuel + 1, b :: rest =>
    (utf8DecodeStep b rest).bind fun p =>
      (utf8DecodeAux fuel p.2).map (fun t => Char.ofNat p.1 :: t)

/-- UTF-8 decoding of a byte list. -/
def utf8Decode (l : List Nat) : Option (List Char) :=
  utf8DecodeAux l.length l

/-- Inverse of `encodeURIComponent`: percent-decode to bytes, then
UTF-8-decode to characters. -/
def decodeURIComponent (s : String) : Option String :=
  match percentDecode s.data with
  | some bytes =>
    match utf8Decode bytes with
    | some chars => some (String.mk chars)
    | none => none
  | none => none

/-!
The typed surface of the SDK (`types.ts`) and the `CultureCoded` class
itself.  Only the input types that are serialized into request bodies
need a JSON image; response payload types stay abstract (`Json`).
-/

/-- The `designType` string-literal union of `AnalyzeDesignOptions`. -/
inductive DesignType where
  | landing_page
  | mobile_app
  | dashboard
  | ecommerce
  | social_media
  | email
  | advertisement
  | other
deriving Repr, DecidableEq

/-- Wire value of a design type. -/
def DesignType.toWire : DesignType → String
  | .landing_page => "landing_page"
  | .mobile_app => "mobile_app"
  | .dashboard => "dashboard"
  | .ecommerce => "ecommerce"
  | .social_media => "social_media"
  | .email => "email"
  | .advertisement => "advertisement"
  | .other => "other"

/-- `AnalyzeDesignOptions` of `types.ts`; optional fields are `Option`
(`none` = the property is absent/`undefined`). -/
structure AnalyzeDesignOptions where
  imageUrl : Option String := none
  imageBase64 : Option String := none
  targetRegion : String
  targetCountry : String
  ethnicGroup : Option String := none
  designType : DesignType
  industry : Option String := none
  additionalContext : Option String := none
deriving Repr

/-- One field of a `JSON.stringify` image, skipped when the property is
`undefined`. -/
def optField (key : String) : Option String → List (String × Json)
  | some s => [(key, Json.str s)]
  | none => []

/-- `JSON.stringify(options)` for an analyze call, with fields in
declaration order and `undefined` fields omitted. -/
def AnalyzeDesignOptions.toJson (o : AnalyzeDesignOptions) : Json :=
  Json.obj
    (optField "imageUrl" o.imageUrl ++
     optField "imageBase64" o.imageBase64 ++
     [("targetRegion", Json.str o.targetRegion),
      ("targetCountry", Json.str o.targetCountry)] ++
     optField "ethnicGroup" o.ethnicGroup ++
     [("designType", Json.str o.designType.toWire)] ++
     optField "industry" o.industry ++
     optField "additionalContext" o.additionalContext)

/-- The `format` string-literal union of `ExportOptions`. -/
inductive ExportFormat where
  | pdf
  | csv
  | figma
deriving Repr, DecidableEq

/-- Wire value of an export format. -/
def ExportFormat.toWire : ExportFormat → String
  | .pdf => "pdf"
  | .csv => "csv"
  | .figma => "figma"

/-- `ExportOptions` of `types.ts`. -/
structure ExportOptions where
  analysisId : String
  format : ExportFormat
  figmaFileKey : Option String := none
deriving Repr

/-- `JSON.stringify(options)` for an export call. -/
def ExportOptions.toJson (o : ExportOptions) : Json :=
  Json.obj
    ([("analysisId", Json.str o.analysisId),
      ("format", Json.str o.format.toWire)] ++
     optField "figmaFileKey" o.figmaFileKey)

/-- `CultureCodedConfig`: the constructor argument.  `apiKey` is a
string in the TypeScript type but the constructor guards against a
missing value, so it is modelled as optional. -/
structure CultureCodedConfig where
  apiKey : Option String := none
  baseUrl : Option String := none
deriving Repr

/-- The constructed client: the two private fields set by the
constructor. -/
structure CultureCoded where
  apiKey : String
  baseUrl : String
deriving Repr

/-- Lines 157-163 of the source: the constructor.  `!config.apiKey`
throws; `config.baseUrl || 'https://culturecoded.replit.app'` picks the
base URL. -/
def CultureCoded.make (config : CultureCodedConfig) : Except SdkError CultureCoded :=
  if jsFalsyStr config.apiKey then
    .error (.plain "API key is required. Get one at https://culturecoded.io/api-docs")
  else
    .ok { apiKey := config.apiKey.getD ""
          baseUrl := jsOrElse config.baseUrl "https://culturecoded.replit.app" }

/-- Lines 165-187 of the source: the request-construction half of
`CultureCoded.request`.  URL is plain template-literal concatenation of
the base URL and the path; the three headers are fixed; the body is
attached only for `POST`/`PATCH` and only when present. -/
def CultureCoded.buildRequest (c : CultureCoded) (method : HttpMethod)
    (path : String) (body : Option Json := none) : HttpRequest :=
  { method := method
    url := c.baseUrl ++ path
    headers :=
      [("x-api-key", c.apiKey),
       ("Content-Type", "application/json"),
       ("User-Agent", "culturecoded-sdk-js/1.0.0")]
    body :=
      if body.isSome && (method == .POST || method == .PATCH) then body
      else none }

/-- Lines 227-232: `analyzeDesign`.  Throws before any network call
unless at least one of `imageUrl`/`imageBase64` is truthy. -/
def CultureCoded.analyzeDesign (c : CultureCoded) (options : AnalyzeDesignOptions) :
    Except SdkError HttpRequest :=
  if jsFalsyStr options.imageUrl && jsFalsyStr options.imageBase64 then
    .error (.plain "Either imageUrl or imageBase64 is required")
  else
    .ok (c.buildRequest .POST "/api/v1/analyze" (some options.toJson))

/-- Lines 239-241: `getAnalyses`. -/
def CultureCoded.getAnalyses (c : CultureCoded) : Except SdkError HttpRequest :=
  .ok (c.buildRequest .GET "/api/v1/analyses")

/-- Lines 249-251: `getAnalysis`. -/
def CultureCoded.getAnalysis (c : CultureCoded) (id : String) : Except SdkError HttpRequest :=
  .ok (c.buildRequest .GET ("/api/v1/analyses/" ++ id))

/-- Lines 258-260: `deleteAnalysis`. -/
def CultureCoded.deleteAnalysis (c : CultureCoded) (id : String) : Except SdkError HttpRequest :=
  .ok (c.buildRequest .DELETE ("/api/v1/analyses/" ++ id))

/-- Lines 279-281: `getEthnicGroups`; the country is passed through
`encodeURIComponent` into the path. -/
def CultureCoded.getEthnicGroups (c : CultureCoded) (country : String) :
    Except SdkError HttpRequest :=
  .ok (c.buildRequest .GET ("/api/v1/ethnic-groups/" ++ encodeURIComponent country))

/-- Lines 288-290: `getRegions`. -/
def CultureCoded.getRegions (c : CultureCoded) : Except SdkError HttpRequest :=
  .ok (c.buildRequest .GET "/api/v1/regions")

/-- Lines 318-323: `exportAnalysis`.  Throws before any network call
when the format is `figma` and `figmaFileKey` is falsy. -/
def CultureCoded.exportAnalysis (c : CultureCoded) (options : ExportOptions) :
    Except SdkError HttpRequest :=
  if options.format == .figma && jsFalsyStr options.figmaFileKey then
    .error (.plain "figmaFileKey is required for Figma exports")
  else
    .ok (c.buildRequest .POST "/api/v1/exports" (some options.toJson))

/-- Lines 332-338: `exportToFigma`, the alias that delegates to
`exportAnalysis` with the format fixed to `figma`. -/
def CultureCoded.exportToFigma (c : CultureCoded) (analysisId : String)
    (figmaFileKey : String) : Except SdkError HttpRequest :=
  c.exportAnalysis
    { analysisId := analysisId
      format := .figma
      figmaFileKey := some figmaFileKey }

/-- Lines 345-347: `getExports`. -/
def CultureCoded.getExports (c : CultureCoded) : Except SdkError HttpRequest :=
  .ok (c.buildRequest .GET "/api/v1/exports")

/-- Lines 358-360: `getUser`. -/
def CultureCoded.getUser (c : CultureCoded) : Except SdkError HttpRequest :=
  .ok (c.buildRequest .GET "/api/v1/user")

/-- Lines 367-369: `getUsage`. -/
def CultureCoded.getUsage (c : CultureCoded) : Except SdkError HttpRequest :=
  .ok (c.buildRequest .GET "/api/v1/stats")

/-!
Round-trip lemmas for `encodeURIComponent`.
-/

/-- Every Unicode scalar value is below `0x110000`. -/
theorem char_toNat_lt (c : Char) : c.toNat < 1114112 := by
  have h : c.val.toNat.isValidChar := c.valid
  show c.val.toNat < 1114112
  rcases h with h | ⟨h1, h2⟩ <;> omega

/-- UTF-8 bytes are bytes. -/
theorem utf8Bytes_lt (c : Char) : ∀ b ∈ utf8Bytes c, b < 256 := by
  have hc := char_toNat_lt c
  intro b hb
  unfold utf8Bytes at hb
  split at hb
  · simp only [List.mem_singleton] at hb; omega
  · split at hb
    · simp only [List.mem_cons, List.mem_singleton, List.not_mem_nil, or_false] at hb
      rcases hb with h | h <;> omega
    · split at hb
      · simp only [List.mem_cons, List.mem_singleton, List.not_mem_nil, or_false] at hb
        rcases hb with h | h | h <;> omega
      · simp only [List.mem_cons, List.mem_singleton, List.not_mem_nil, or_false] at hb
        rcases hb with h | h | h | h <;> omega

/-- `hexVal` inverts `hexDigit` on values below 16. -/
theorem hexVal_hexDigit : ∀ m, m < 16 → hexVal (hexDigit m) = some m := by decide

/-- Unreserved characters are ASCII. -/
theorem uriUnreserved_lt (c : Char) (h : uriUnreserved c = true) : c.toNat < 128 := by
  simp only [uriUnreserved, Bool.or_eq_true, Bool.and_eq_true, decide_eq_true_eq,
    beq_iff_eq] at h
  omega

/-- Unreserved characters are not the escape character. -/
theorem uriUnreserved_ne_percent (c : Char) (h : uriUnreserved c = true) : c ≠ '%' := by
  intro hc
  rw [hc] at h
  exact absurd h (by decide)

/-- Unfolding `percentDecode` past an unescaped character. -/
theorem percentDecode_cons_ne (c : Char) (rest : List Char) (hne : c ≠ '%') :
    percentDecode (c :: rest) = (percentDecode rest).map (fun t => c.toNat :: t) := by
  rw [percentDecode.eq_def]
  simp [hne]

/-- Unfolding `percentDecode` past one percent-escape. -/
theorem percentDecode_escape (a b : Nat) (ha : a < 16) (hb : b < 16) (rest : List Char) :
    percentDecode ('%' :: hexDigit a :: hexDigit b :: rest) =
      (percentDecode rest).map (fun t => (16 * a + b) :: t) := by
  rw [percentDecode.eq_def]
  simp [hexVal_hexDigit a ha, hexVal_hexDigit b hb]

/-- Percent-decoding inverts the byte-by-byte escaping. -/
theorem percentDecode_bytes (bs : List Nat) (hbs : ∀ b ∈ bs, b < 256) (rest : List Char) :
    percentDecode ((bs.map percentByte).flatten ++ rest) =
      (percentDecode rest).map (fun t => bs ++ t) := by
  induction bs with
  | nil => simp
  | cons b bs ih =>
    have hb : b < 256 := hbs b (by simp)
    have hdiv : b / 16 < 16 := by omega
    have hmod : b % 16 < 16 := by omega
    simp only [List.map_cons, List.flatten_cons, List.append_assoc, percentByte,
      List.cons_append, List.nil_append]
    rw [percentDecode_escape _ _ hdiv hmod]
    rw [ih (fun x hx => hbs x (by simp [hx]))]
    have harith : 16 * (b / 16) + b % 16 = b := by omega
    simp only [Option.map_map, Function.comp_def, harith, List.cons_append]

/-- Percent-decoding inverts the per-character encoding. -/
theorem percentDecode_encChar (c : Char) (rest : List Char) :
    percentDecode (encChar c ++ rest) =
      (percentDecode rest).map (fun t => utf8Bytes c ++ t) := by
  by_cases h : uriUnreserved c
  · have hlt : c.toNat < 128 := uriUnreserved_lt c h
    have hne : c ≠ '%' := uriUnreserved_ne_percent c h
    have hb : utf8Bytes c = [c.toNat] := by unfold utf8Bytes; rw [if_pos hlt]
    simp only [encChar, if_pos h, List.cons_append, List.nil_append]
    rw [percentDecode_cons_ne c rest hne, hb]
    rfl
  · simp only [encChar, if_neg h]
    exact percentDecode_bytes (utf8Bytes c) (utf8Bytes_lt c) rest

/-- Percent-decoding the full encoding yields the UTF-8 byte stream. -/
theorem percentDecode_encode (l : List Char) :
    percentDecode ((l.map encChar).flatten) = some ((l.map utf8Bytes).flatten) := by
  induction l with
  | nil => rfl
  | cons c cs ih =>
    simp only [List.map_cons, List.flatten_cons]
    rw [percentDecode_encChar, ih]
    rfl

/-- The UTF-8 bytes of a character decode in one step back to its
scalar value, leaving the rest of the stream untouched. -/
theorem utf8DecodeStep_enc (c : Char) (rest : List Nat) :
    utf8Bytes c ++ rest = (utf8Bytes c).head! :: ((utf8Bytes c).tail ++ rest) ∧
      utf8DecodeStep (utf8Bytes c).head! ((utf8Bytes c).tail ++ rest) =
        some (c.toNat, rest) := by
  have hc := char_toNat_lt c
  by_cases h1 : c.toNat < 128
  · have hb : utf8Bytes c = [c.toNat] := by unfold utf8Bytes; rw [if_pos h1]
    rw [hb]
    simp only [List.head!_cons, List.tail_cons]
    refine ⟨rfl, ?_⟩
    unfold utf8DecodeStep
    rw [if_pos h1]
    simp
  · by_cases h2 : c.toNat < 2048
    · have hb : utf8Bytes c = [192 + c.toNat / 64, 128 + c.toNat % 64] := by
        unfold utf8Bytes; rw [if_neg h1, if_pos h2]
      rw [hb]
      simp only [List.head!_cons, List.tail_cons]
      refine ⟨rfl, ?_⟩
      unfold utf8DecodeStep
      rw [if_neg (by omega), if_neg (by omega), if_pos (by omega)]
      simp only [List.tail_cons, List.cons_append, List.nil_append]
      rw [if_pos ⟨by omega, by omega⟩]
      have harith : (192 + c.toNat / 64 - 192) * 64 + (128 + c.toNat % 64 - 128) = c.toNat := by
        omega
      rw [harith]
    · by_cases h3 : c.toNat < 65536
      · have hb : utf8Bytes c =
            [224 + c.toNat / 4096, 128 + c.toNat / 64 % 64, 128 + c.toNat % 64] := by
          unfold utf8Bytes; rw [if_neg h1, if_neg h2, if_pos h3]
        rw [hb]
        simp only [List.head!_cons, List.tail_cons]
        refine ⟨rfl, ?_⟩
        unfold utf8DecodeStep
        rw [if_neg (by omega), if_neg (by omega), if_neg (by omega), if_pos (by omega)]
        simp only [List.tail_cons, List.cons_append, List.nil_append]
        rw [if_pos ⟨⟨by omega, by omega⟩, by omega, by omega⟩]
        have harith : (224 + c.toNat / 4096 - 224) * 4096 +
            (128 + c.toNat / 64 % 64 - 128) * 64 + (128 + c.toNat % 64 - 128) = c.toNat := by
          omega
        rw [harith]
      · have hb : utf8Bytes c =
            [240 + c.toNat / 262144, 128 + c.toNat / 4096 % 64, 128 + c.toNat / 64 % 64,
             128 + c.toNat % 64] := by
          unfold utf8Bytes; rw [if_neg h1, if_neg h2, if_neg h3]
        rw [hb]
        simp only [List.head!_cons, List.tail_cons]
        refine ⟨rfl, ?_⟩
        unfold utf8DecodeStep
        rw [if_neg (by omega), if_neg (by omega), if_neg (by omega), if_neg (by omega),
          if_pos (by omega)]
        simp only [List.tail_cons, List.cons_append, List.nil_append]
        rw [if_pos ⟨⟨by omega, by omega⟩, ⟨by omega, by omega⟩, by omega, by omega⟩]
        have harith : (240 + c.toNat / 262144 - 240) * 262144 +
            (128 + c.toNat / 4096 % 64 - 128) * 4096 +
            (128 + c.toNat / 64 % 64 - 128) * 64 + (128 + c.toNat % 64 - 128) = c.toNat := by
          omega
        rw [harith]

/-- UTF-8 bytes of a character are never empty. -/
theorem utf8Bytes_ne_nil (c : Char) : utf8Bytes c ≠ [] := by
  unfold utf8Bytes
  split
  · simp
  · split
    · simp
    · split <;> simp

/-- Decoding with enough fuel consumes one encoded character. -/
theorem utf8DecodeAux_append (c : Char) (fuel : Nat) (rest : List Nat) :
    utf8DecodeAux (fuel + 1) (utf8Bytes c ++ rest) =
      (utf8DecodeAux fuel rest).map (fun t => c :: t) := by
  obtain ⟨hshape, hstep⟩ := utf8DecodeStep_enc c rest
  rw [hshape]
  rw [utf8DecodeAux]
  rw [hstep]
  simp [Char.ofNat_toNat]

/-- With fuel at least the byte length, decoding the concatenated
UTF-8 stream recovers the text. -/
theorem utf8DecodeAux_encode (l : List Char) :
    ∀ fuel, ((l.map utf8Bytes).flatten).length ≤ fuel →
      utf8DecodeAux fuel ((l.map utf8Bytes).flatten) = some l := by
  induction l with
  | nil => intro fuel _; cases fuel <;> rfl
  | cons c cs ih =>
    intro fuel hfuel
    simp only [List.map_cons, List.flatten_cons] at hfuel ⊢
    have hne : 1 ≤ (utf8Bytes c).length := by
      cases hb : utf8Bytes c with
      | nil => exact absurd hb (utf8Bytes_ne_nil c)
      | cons x xs => simp
    rw [List.length_append] at hfuel
    cases fuel with
    | zero => omega
    | succ f =>
      rw [utf8DecodeAux_append]
      rw [ih f (by omega)]
      rfl

/-- UTF-8 decoding the concatenated byte stream recovers the text. -/
theorem utf8Decode_encode (l : List Char) :
    utf8Decode ((l.map utf8Bytes).flatten) = some l :=
  utf8DecodeAux_encode l _ (Nat.le_refl _)

/-- `decodeURIComponent` inverts `encodeURIComponent` on every
string. -/
theorem decode_encodeURIComponent (s : String) :
    decodeURIComponent (encodeURIComponent s) = some s := by
  show decodeURIComponent (String.mk ((s.data.map encChar).flatten)) = some s
  unfold decodeURIComponent
  simp only [percentDecode_encode, utf8Decode_encode]

/-- Hex digits are never the path separator. -/
theorem hexDigit_ne_slash : ∀ m, m < 16 → hexDigit m ≠ '/' := by decide

/-- The encoding of a single character never contains the path
separator. -/
theorem encChar_no_slash (c : Char) : '/' ∉ encChar c := by
  by_cases h : uriUnreserved c
  · simp only [encChar, if_pos h, List.mem_singleton]
    intro hc
    rw [← hc] at h
    exact absurd h (by decide)
  · simp only [encChar, if_neg h]
    intro hmem
    rw [List.mem_flatten] at hmem
    obtain ⟨chunk, hchunk, hc⟩ := hmem
    rw [List.mem_map] at hchunk
    obtain ⟨b, hb, rfl⟩ := hchunk
    have hb256 : b < 256 := utf8Bytes_lt c b hb
    simp only [percentByte, List.mem_cons, List.mem_singleton, List.not_mem_nil,
      or_false] at hc
    rcases hc with h1 | h1 | h1
    · exact absurd h1.symm (by decide)
    · exact hexDigit_ne_slash (b / 16) (by omega) h1.symm
    · exact hexDigit_ne_slash (b % 16) (by omega) h1.symm

/-- An encoded component never contains the path separator: it always
stays a single path segment. -/
theorem encodeURIComponent_no_slash (s : String) :
    ∀ ch ∈ (encodeURIComponent s).data, ch ≠ '/' := by
  intro ch hch
  intro hslash
  have hch : ch ∈ (s.data.map encChar).flatten := hch
  rw [List.mem_flatten] at hch
  obtain ⟨chunk, hchunk, hc⟩ := hch
  rw [List.mem_map] at hchunk
  obtain ⟨c, _, rfl⟩ := hchunk
  rw [hslash] at hc
  exact encChar_no_slash c hc

/-!
The claims.
-/

/-- Claim C1, counterexample to the universal statement: a non-2xx
response whose body parses to the JSON literal `null` makes the client
read `.message` of `null`, which raises a bare `TypeError` carrying no
remote status code, no error code, and no fallback message — not the
structured remote error the claim promises for every non-2xx
response. -/
theorem C1_counterexample :
    handleResponse { status := 500, body := some Json.null } =
      .error SdkError.typeError := rfl

/-- Claim C1 (amended): for every non-2xx HTTP response whose body does
not parse to the JSON literal `null`, the client raises an error that
carries the remote status code and the raw `code` property of the
parsed error body; its message equals the body's message whenever the
body provides a non-empty string message, and otherwise is the generic
fallback `Request failed with status N`; a body that is not parseable
as JSON yields this error with the fallback message and the correct
status rather than crashing. -/
theorem C1_remote_error (r : HttpResponse)
    (hstatus : responseOk r.status = false)
    (hnull : r.body.getD (Json.obj []) ≠ Json.null) :
    handleResponse r =
      .error (.remote r.status ((r.body.getD (Json.obj [])).getField "code")
        (remoteErrorMessage (r.body.getD (Json.obj [])) r.status))
    ∧ (∀ m : String, (r.body.getD (Json.obj [])).getField "message" = some (.str m) →
        m ≠ "" → remoteErrorMessage (r.body.getD (Json.obj [])) r.status = m)
    ∧ ((r.body.getD (Json.obj [])).getField "message" = none →
        remoteErrorMessage (r.body.getD (Json.obj [])) r.status =
          "Request failed with status " ++ toString r.status)
    ∧ (r.body = none →
        handleResponse r =
          .error (.remote r.status none
            ("Request failed with status " ++ toString r.status))) := by
  refine ⟨?_, ?_, ?_, ?_⟩
  · unfold handleResponse
    rw [hstatus]
    cases hpayload : r.body.getD (Json.obj []) with
    | null => exact absurd hpayload hnull
    | bool b => rfl
    | num n => rfl
    | str s => rfl
    | arr elems => rfl
    | obj fields => rfl
  · intro m hm hne
    simp [remoteErrorMessage, hm, Json.jsTruthy, Json.jsToString, hne]
  · intro hm
    unfold remoteErrorMessage
    rw [hm]
  · intro hb
    unfold handleResponse
    rw [hstatus, hb]
    rfl

/-- Claim C1, witness: a 402 response with body
`message Insufficient credits, code NO_CREDITS` yields the remote
error exposing the status, the code and the body's message. -/
theorem C1_remote_error_witness :
    handleResponse
        { status := 402
          body := some (Json.obj [("message", Json.str "Insufficient credits"),
            ("code", Json.str "NO_CREDITS")]) } =
      .error (.remote 402 (some (Json.str "NO_CREDITS")) "Insufficient credits") := by
  have h := C1_remote_error
    { status := 402
      body := some (Json.obj [("message", Json.str "Insufficient credits"),
        ("code", Json.str "NO_CREDITS")]) }
    (by rfl) (by simp [Json.getField])
  rw [h.1]
  rfl

/-- Claim C2, counterexample: the source only checks that at least one
image form is present (`!options.imageUrl && !options.imageBase64`), so
a call carrying BOTH `imageUrl` and `imageBase64` — not exactly one
form — does not raise the input error and proceeds to build the
request. -/
theorem C2_counterexample :
    (CultureCoded.analyzeDesign ⟨"key", "https://culturecoded.replit.app"⟩
      { imageUrl := some "https://example.com/x.png"
        imageBase64 := some "QUJD"
        targetRegion := "Africa"
        targetCountry := "Nigeria"
        designType := .landing_page }).isOk = true := rfl

/-- Claim C2 (amended): `analyzeDesign` fails with the input error
before any network activity — no request is issued — unless at least
one image reference form (`imageUrl` or `imageBase64`) is present
(truthy); in particular a call with neither form raises the input
error with no HTTP request issued, and with at least one form present
the call proceeds to the network request. -/
theorem C2_input_error (c : CultureCoded) (options : AnalyzeDesignOptions)
    (transport : HttpRequest → HttpResponse) :
    ((jsFalsyStr options.imageUrl && jsFalsyStr options.imageBase64) = true →
      performT transport (c.analyzeDesign options) =
        ([], .error (.plain "Either imageUrl or imageBase64 is required")))
    ∧ ((jsFalsyStr options.imageUrl && jsFalsyStr options.imageBase64) = false →
      performT transport (c.analyzeDesign options) =
        ([c.buildRequest .POST "/api/v1/analyze" (some options.toJson)],
          handleResponse (transport
            (c.buildRequest .POST "/api/v1/analyze" (some options.toJson))))) := by
  constructor
  · intro h
    simp [CultureCoded.analyzeDesign, h, performT]
  · intro h
    simp [CultureCoded.analyzeDesign, h, performT]

/-- Claim C2, witness: with neither image form the analyze call issues
no request and raises the input error. -/
theorem C2_input_error_witness :
    performT (fun _ => { status := 200, body := some Json.null })
        (CultureCoded.analyzeDesign ⟨"key", "https://culturecoded.replit.app"⟩
          { targetRegion := "Africa"
            targetCountry := "Nigeria"
            designType := .other }) =
      ([], .error (.plain "Either imageUrl or imageBase64 is required")) :=
  (C2_input_error ⟨"key", "https://culturecoded.replit.app"⟩
    { targetRegion := "Africa", targetCountry := "Nigeria", designType := .other }
    (fun _ => { status := 200, body := some Json.null })).1 (by rfl)

/-- Claim C3: constructing the client without an API key (absent, or
the falsy empty string) fails with the construction-time
configuration error before anything else; constructing with any
non-empty API key succeeds. -/
theorem C3_construction (baseUrl : Option String) (key : String) (hkey : key ≠ "") :
    CultureCoded.make { apiKey := none, baseUrl := baseUrl } =
      .error (.plain "API key is required. Get one at https://culturecoded.io/api-docs")
    ∧ CultureCoded.make { apiKey := some "", baseUrl := baseUrl } =
      .error (.plain "API key is required. Get one at https://culturecoded.io/api-docs")
    ∧ (CultureCoded.make { apiKey := some key, baseUrl := baseUrl }).isOk = true := by
  refine ⟨rfl, rfl, ?_⟩
  have hkf : jsFalsyStr (some key) = false := by simpa [jsFalsyStr] using hkey
  unfold CultureCoded.make
  rw [hkf]
  rfl

/-- Claim C3, witness: the missing-key error and a successful
construction at a concrete key. -/
theorem C3_construction_witness :
    CultureCoded.make { apiKey := none, baseUrl := none } =
      .error (.plain "API key is required. Get one at https://culturecoded.io/api-docs")
    ∧ CultureCoded.make { apiKey := some "", baseUrl := none } =
      .error (.plain "API key is required. Get one at https://culturecoded.io/api-docs")
    ∧ (CultureCoded.make { apiKey := some "ck_live_1", baseUrl := none }).isOk = true :=
  C3_construction none "ck_live_1" (by decide)

/-- Claim C4: with no base URL (or the falsy empty string, which `||`
treats as absent) the client uses the fixed production endpoint
`https://culturecoded.replit.app`; a supplied (non-empty) base URL
string is stored verbatim and is the exact prefix of every request
URL, with no trailing-slash handling and no mutation. -/
theorem C4_base_url (key : String) (hkey : key ≠ "") :
    (∀ c, CultureCoded.make { apiKey := some key, baseUrl := none } = .ok c →
      c.baseUrl = "https://culturecoded.replit.app")
    ∧ (∀ c, CultureCoded.make { apiKey := some key, baseUrl := some "" } = .ok c →
      c.baseUrl = "https://culturecoded.replit.app")
    ∧ (∀ s, s ≠ "" →
        ∀ c, CultureCoded.make { apiKey := some key, baseUrl := some s } = .ok c →
          c.baseUrl = s ∧
          ∀ method path body, (c.buildRequest method path body).url = s ++ path) := by
  have hkf : jsFalsyStr (some key) = false := by simpa [jsFalsyStr] using hkey
  refine ⟨?_, ?_, ?_⟩
  · intro c hc
    simp [CultureCoded.make, hkf, jsOrElse] at hc
    rw [← hc]
  · intro c hc
    simp [CultureCoded.make, hkf, jsOrElse] at hc
    rw [← hc]
  · intro s hs c hc
    simp [CultureCoded.make, hkf, jsOrElse, hs] at hc
    refine ⟨by rw [← hc], fun method path body => ?_⟩
    rw [← hc]
    rfl


/-- Claim C4, witness: a concrete staging base URL is used verbatim as
the request-URL prefix. -/
theorem C4_base_url_witness :
    (⟨"ck_live_1", "https://staging.example.com"⟩ : CultureCoded).baseUrl =
      "https://staging.example.com" ∧
    ∀ method path body,
      ((⟨"ck_live_1", "https://staging.example.com"⟩ : CultureCoded).buildRequest
        method path body).url = "https://staging.example.com" ++ path :=
  (C4_base_url "ck_live_1" (by decide)).2.2 "https://staging.example.com" (by decide)
    ⟨"ck_live_1", "https://staging.example.com"⟩ (by rfl)

/-- Claim C5: `exportAnalysis` fails with the configuration error
before any network activity — no request issued — exactly when the
format is `figma` and no (truthy) `figmaFileKey` is supplied; `pdf`
and `csv` exports never require the file key and always proceed to
the network call. -/
theorem C5_export_validation (c : CultureCoded) (options : ExportOptions)
    (transport : HttpRequest → HttpResponse) :
    (performT transport (c.exportAnalysis options) =
        ([], .error (.plain "figmaFileKey is required for Figma exports"))
      ↔ options.format = .figma ∧ jsFalsyStr options.figmaFileKey = true)
    ∧ (options.format ≠ .figma →
        performT transport (c.exportAnalysis options) =
          ([c.buildRequest .POST "/api/v1/exports" (some options.toJson)],
            handleResponse (transport (c.buildRequest .POST "/api/v1/exports"
              (some options.toJson))))) := by
  by_cases hcond :
      (options.format == ExportFormat.figma && jsFalsyStr options.figmaFileKey) = true
  · have hfmt : options.format = .figma :=
      beq_iff_eq.mp ((Bool.and_eq_true _ _).mp hcond).1
    have hkey : jsFalsyStr options.figmaFileKey = true :=
      ((Bool.and_eq_true _ _).mp hcond).2
    have hexp : c.exportAnalysis options =
        .error (.plain "figmaFileKey is required for Figma exports") := by
      unfold CultureCoded.exportAnalysis
      rw [hcond]
      rfl
    rw [hexp]
    refine ⟨⟨fun _ => ⟨hfmt, hkey⟩, fun _ => rfl⟩, fun hne => absurd hfmt hne⟩
  · have hcond' :
        (options.format == ExportFormat.figma && jsFalsyStr options.figmaFileKey) = false :=
      by simpa using hcond
    have hexp : c.exportAnalysis options =
        .ok (c.buildRequest .POST "/api/v1/exports" (some options.toJson)) := by
      unfold CultureCoded.exportAnalysis
      rw [hcond']
      rfl
    rw [hexp]
    refine ⟨⟨fun h => ?_, fun hok => ?_⟩, fun _ => rfl⟩
    · simp [performT] at h
    · obtain ⟨hfmt, hkey⟩ := hok
      rw [hfmt] at hcond'
      simp [hkey] at hcond'

/-- Claim C5, witness: a `figma` export without a file key issues no
request and raises the configuration error. -/
theorem C5_export_validation_witness :
    performT (fun _ => { status := 200, body := some Json.null })
        (CultureCoded.exportAnalysis ⟨"key", "https://culturecoded.replit.app"⟩
          { analysisId := "abc123", format := .figma }) =
      ([], .error (.plain "figmaFileKey is required for Figma exports")) :=
  ((C5_export_validation ⟨"key", "https://culturecoded.replit.app"⟩
      { analysisId := "abc123", format := .figma }
      (fun _ => { status := 200, body := some Json.null })).1).mpr ⟨rfl, rfl⟩

/-- Claim C6: `exportToFigma analysisId figmaFileKey` is the export
operation with format fixed to `figma` and the same id and key: it
builds the identical request (method, URL, headers and JSON body) and,
against any transport, issues the same request and returns the same
result. -/
theorem C6_figma_alias (c : CultureCoded) (analysisId figmaFileKey : String)
    (transport : HttpRequest → HttpResponse) :
    c.exportToFigma analysisId figmaFileKey =
      c.exportAnalysis
        { analysisId := analysisId
          format := .figma
          figmaFileKey := some figmaFileKey }
    ∧ performT transport (c.exportToFigma analysisId figmaFileKey) =
        performT transport (c.exportAnalysis
          { analysisId := analysisId
            format := .figma
            figmaFileKey := some figmaFileKey }) :=
  ⟨rfl, rfl⟩

/-- Claim C7: a 204 "no content" response resolves successfully with
no value — whatever the body parse outcome would have been — and in
particular `deleteAnalysis` against a 204 transport issues its single
DELETE request and resolves with no value rather than an error. -/
theorem C7_no_content (body : Option Json) (c : CultureCoded) (id : String) :
    handleResponse { status := 204, body := body } = .ok none
    ∧ performT (fun _ => { status := 204, body := body }) (c.deleteAnalysis id) =
        ([c.buildRequest .DELETE ("/api/v1/analyses/" ++ id)], .ok none) :=
  ⟨rfl, rfl⟩

/-- Claim C8: `getEthnicGroups` places the country into the request
path under the ethnic-groups route through `encodeURIComponent`: the
encoded country never contains a path separator (it stays exactly one
segment), and decoding the segment recovers the country exactly, for
every country string including ones with spaces and special
characters. -/
theorem C8_country_encoding (c : CultureCoded) (country : String) :
    c.getEthnicGroups country =
      .ok (c.buildRequest .GET ("/api/v1/ethnic-groups/" ++ encodeURIComponent country))
    ∧ (∀ ch ∈ (encodeURIComponent country).data, ch ≠ '/')
    ∧ decodeURIComponent (encodeURIComponent country) = some country :=
  ⟨rfl, encodeURIComponent_no_slash country, decode_encodeURIComponent country⟩

/-- Claim C8, witness: a country name with a space round-trips through
the encoded path segment. -/
theorem C8_country_encoding_witness :
    decodeURIComponent (encodeURIComponent "Ivory Coast") = some "Ivory Coast" :=
  (C8_country_encoding ⟨"key", "https://culturecoded.replit.app"⟩ "Ivory Coast").2.2

/-- Claim C9: every operation issues exactly one HTTP request whose
URL is the configured base URL joined with the operation's fixed path
and whose headers are exactly the API-key header with the configured
key, the JSON content-type header, and the client-identifying
user-agent string; a JSON-serialized body is attached exactly when the
operation has a typed input object (the analyze and export calls), and
never on the body-less operations. -/
theorem C9_transport_contract (c : CultureCoded) :
    (∀ method path body, (c.buildRequest method path body).url = c.baseUrl ++ path ∧
      (c.buildRequest method path body).headers =
        [("x-api-key", c.apiKey), ("Content-Type", "application/json"),
         ("User-Agent", "culturecoded-sdk-js/1.0.0")])
    ∧ (∀ transport r, performT transport (.ok r) = ([r], handleResponse (transport r)))
    ∧ (∀ transport e,
        performT transport (.error e) = ([], Except.error (α := Option Json) e))
    ∧ c.getAnalyses = .ok (c.buildRequest .GET "/api/v1/analyses")
    ∧ (∀ id, c.getAnalysis id = .ok (c.buildRequest .GET ("/api/v1/analyses/" ++ id)))
    ∧ (∀ id, c.deleteAnalysis id = .ok (c.buildRequest .DELETE ("/api/v1/analyses/" ++ id)))
    ∧ (∀ country, c.getEthnicGroups country =
        .ok (c.buildRequest .GET ("/api/v1/ethnic-groups/" ++ encodeURIComponent country)))
    ∧ c.getRegions = .ok (c.buildRequest .GET "/api/v1/regions")
    ∧ c.getExports = .ok (c.buildRequest .GET "/api/v1/exports")
    ∧ c.getUser = .ok (c.buildRequest .GET "/api/v1/user")
    ∧ c.getUsage = .ok (c.buildRequest .GET "/api/v1/stats")
    ∧ (∀ options r, c.analyzeDesign options = .ok r →
        r = c.buildRequest .POST "/api/v1/analyze" (some options.toJson) ∧
        r.body = some options.toJson)
    ∧ (∀ options r, c.exportAnalysis options = .ok r →
        r = c.buildRequest .POST "/api/v1/exports" (some options.toJson) ∧
        r.body = some options.toJson)
    ∧ (∀ method path, (c.buildRequest method path none).body = none) := by
  refine ⟨fun method path body => ⟨rfl, rfl⟩, fun transport r => rfl, fun transport e => rfl,
    rfl, fun id => rfl, fun id => rfl, fun country => rfl, rfl, rfl, rfl, rfl,
    ?_, ?_, fun method path => rfl⟩
  · intro options r h
    unfold CultureCoded.analyzeDesign at h
    by_cases hcond : (jsFalsyStr options.imageUrl && jsFalsyStr options.imageBase64) = true
    · rw [hcond] at h
      exact absurd h (by simp)
    · have hcond' : (jsFalsyStr options.imageUrl && jsFalsyStr options.imageBase64) = false :=
        by simpa using hcond
      rw [hcond'] at h
      simp only [Bool.false_eq_true, if_false, Except.ok.injEq] at h
      exact ⟨h.symm, by rw [← h]; rfl⟩
  · intro options r h
    unfold CultureCoded.exportAnalysis at h
    by_cases hcond :
        (options.format == ExportFormat.figma && jsFalsyStr options.figmaFileKey) = true
    · rw [hcond] at h
      exact absurd h (by simp)
    · have hcond' :
          (options.format == ExportFormat.figma && jsFalsyStr options.figmaFileKey) = false :=
        by simpa using hcond
      rw [hcond'] at h
      simp only [Bool.false_eq_true, if_false, Except.ok.injEq] at h
      exact ⟨h.symm, by rw [← h]; rfl⟩

/-- Claim C9, witness: the fixed header list of a concrete request. -/
theorem C9_transport_contract_witness :
    ((⟨"key", "https://culturecoded.replit.app"⟩ : CultureCoded).buildRequest
        .GET "/api/v1/user" none).url =
      "https://culturecoded.replit.app" ++ "/api/v1/user" ∧
    ((⟨"key", "https://culturecoded.replit.app"⟩ : CultureCoded).buildRequest
        .GET "/api/v1/user" none).headers =
      [("x-api-key", "key"), ("Content-Type", "application/json"),
       ("User-Agent", "culturecoded-sdk-js/1.0.0")] :=
  (C9_transport_contract ⟨"key", "https://culturecoded.replit.app"⟩).1 .GET "/api/v1/user" none

/-- Claim C10: the tolerance of malformed bodies applies only to
non-2xx responses: a 2xx response other than 204 whose body is not
valid JSON fails with the raw JSON parse rejection, not with the
structured remote error carrying a status code. -/
theorem C10_success_parse_failure (r : HttpResponse)
    (hok : responseOk r.status = true) (h204 : r.status ≠ 204) (hbody : r.body = none) :
    handleResponse r = .error .jsonParse
    ∧ ∀ status code msg, handleResponse r ≠ .error (.remote status code msg) := by
  have hbeq : (r.status == 204) = false := by simpa using h204
  have hmain : handleResponse r = .error .jsonParse := by
    unfold handleResponse
    rw [hok, hbeq, hbody]
    rfl
  refine ⟨hmain, fun status code msg h => ?_⟩
  rw [hmain] at h
  exact SdkError.noConfusion (Except.error.inj h)

/-- Claim C10, witness: a 200 response with an unparseable body is the
raw parse failure. -/
theorem C10_success_parse_failure_witness :
    handleResponse { status := 200, body := none } = .error .jsonParse :=
  (C10_success_parse_failure { status := 200, body := none } rfl (by decide) rfl).1
